import Mathlib

/-!
Verification of the `ios-infra` release-automation scripts.

The development shallowly embeds the three Python scripts of the repository:

* `scripts/generate_icons.py` — icon-set generation: the fixed catalog of
  (point size, scale) pairs, the pixel-size computation, the per-run
  deduplication of emitted image files, and the `Contents.json` manifest.
* `scripts/generate_description.py` — source-file selection and bounded
  concatenation for the prompt context, and the emoji stripper.
* `scripts/generate_release_notes.py` — the release-tag fallback, the
  commit-log parser, the version extractor, and the output-path fallback.

Strings are modelled as `List Char` (Python strings are sequences of code
points); subprocess and filesystem results are passed in explicitly as data.
Definitions come first, theorems after them.
-/

namespace IosInfra

/-! Definitions for `generate_icons.py`. -/

/-- Python `int()` applied to a rational: truncation toward zero.  The icon
script computes `int(points * scale)`; all catalog products are exactly
representable in a float, so the rational model is exact. -/
def pyInt (q : ℚ) : ℤ := if q < 0 then ⌈q⌉ else ⌊q⌋

/-- The fixed catalog `IOS_ICON_SIZES` of (points, scale) pairs, in source
order: iPhone block, iPad block, App Store entry.  `83.5` is written as
`167/2`. -/
def IOS_ICON_SIZES : List (ℚ × ℕ) :=
  [(20, 2), (20, 3), (29, 2), (29, 3), (40, 2), (40, 3), (60, 2), (60, 3),
   (20, 1), (20, 2), (29, 1), (29, 2), (40, 1), (40, 2), (76, 1), (76, 2),
   (167/2, 2), (1024, 1)]

/-- Pixel size of a catalog entry: `int(points * scale)`. -/
def pixelOf (p : ℚ) (s : ℕ) : ℤ := pyInt (p * s)

/-- Image filename for a pixel size: `f"icon_{px}x{px}.png"`. -/
def fileNameOf (px : ℤ) : String :=
  "icon_" ++ toString px ++ "x" ++ toString px ++ ".png"

/-- Idiom classification of `generate_contents_json`: default `"universal"`,
overridden by the hardcoded point/scale combinations. -/
def idiomOf (p : ℚ) (s : ℕ) : String :=
  if p = 60 ∧ (s = 2 ∨ s = 3) then "iphone"
  else if p = 76 ∨ p = 167/2 then "ipad"
  else if p = 1024 then "ios-marketing"
  else "universal"

/-- Decimal rendering of a catalog point size, matching Python string
formatting of the catalog's literals (integers print without a decimal
point, `83.5` prints one fractional digit). -/
def pyNumStr (q : ℚ) : String :=
  if q.den = 1 then toString q.num
  else toString ⌊q⌋ ++ "." ++ toString ((q - ⌊q⌋) * 10).num

/-- One element of the manifest's `images` list. -/
structure ManifestEntry where
  filename : String
  idiom : String
  scale : String
  size : String
deriving DecidableEq

/-- The manifest entry built for a catalog element by
`generate_contents_json`'s loop body. -/
def manifestEntryOf (p : ℚ) (s : ℕ) : ManifestEntry :=
  { filename := fileNameOf (pixelOf p s)
    idiom := idiomOf p s
    scale := toString s ++ "x"
    size := pyNumStr p ++ "x" ++ pyNumStr p }

/-- The `Contents.json` value: an `images` list plus a fixed `info` block. -/
structure Manifest where
  images : List ManifestEntry
  author : String
  version : ℕ
deriving DecidableEq

/-- Shallow embedding of `generate_contents_json`. -/
def generate_contents_json (sizes : List (ℚ × ℕ)) : Manifest :=
  { images := sizes.map (fun e => manifestEntryOf e.1 e.2)
    author := "ios-infra"
    version := 1 }

/-- The non-preview image-generation loop of `main`: walk the catalog,
skip an entry whose pixel size is already in the set of generated sizes,
otherwise record the size.  Returns the pixel sizes actually written, in
emission order; `seen` is the `generated_sizes` set. -/
def genSizesLoop : List (ℚ × ℕ) → List ℤ → List ℤ
  | [], _ => []
  | (p, s) :: rest, seen =>
    let px := pixelOf p s
    if px ∈ seen then genSizesLoop rest seen
    else px :: genSizesLoop rest (px :: seen)

/-- The pixel sizes written by a full (non-preview) run. -/
def generatedSizes : List ℤ := genSizesLoop IOS_ICON_SIZES []

/-- The PNG filenames written by a full (non-preview) run. -/
def generatedFiles : List String := generatedSizes.map fileNameOf

/-- The same dedup loop, on an already-computed list of pixel sizes. -/
def dedupLoop : List ℤ → List ℤ → List ℤ
  | [], _ => []
  | px :: rest, seen =>
    if px ∈ seen then dedupLoop rest seen
    else px :: dedupLoop rest (px :: seen)

/-! Definitions for the emoji stripper of `generate_description.py`. -/

/-- Membership in the character class of the script's `emoji_pattern`
regular expression: the eleven code-point ranges listed in the source. -/
def isEmojiChar (c : Char) : Bool :=
  (0x1F600 ≤ c.toNat && c.toNat ≤ 0x1F64F) ||
  (0x1F300 ≤ c.toNat && c.toNat ≤ 0x1F5FF) ||
  (0x1F680 ≤ c.toNat && c.toNat ≤ 0x1F6FF) ||
  (0x1F700 ≤ c.toNat && c.toNat ≤ 0x1F77F) ||
  (0x1F780 ≤ c.toNat && c.toNat ≤ 0x1F7FF) ||
  (0x1F800 ≤ c.toNat && c.toNat ≤ 0x1F8FF) ||
  (0x1F900 ≤ c.toNat && c.toNat ≤ 0x1F9FF) ||
  (0x1FA00 ≤ c.toNat && c.toNat ≤ 0x1FA6F) ||
  (0x1FA70 ≤ c.toNat && c.toNat ≤ 0x1FAFF) ||
  (0x2702 ≤ c.toNat && c.toNat ≤ 0x27B0) ||
  (0x1F1E0 ≤ c.toNat && c.toNat ≤ 0x1F1FF)

/-- The substitution `emoji_pattern.sub("", description)`: every character
of the class is removed, all other characters are kept in order. -/
def stripEmoji (s : List Char) : List Char := s.filter (fun c => !isEmojiChar c)

/-- The Unicode blocks named by the claim: emoticons U+1F600–U+1F64F,
symbols and pictographs U+1F300–U+1F5FF, transport U+1F680–U+1F6FF, the
supplemental blocks U+1F700–U+1FAFF, dingbats U+2702–U+27B0 and flags
U+1F1E0–U+1F1FF. -/
def inSpecBlocks (c : Char) : Prop :=
  (0x1F600 ≤ c.toNat ∧ c.toNat ≤ 0x1F64F) ∨
  (0x1F300 ≤ c.toNat ∧ c.toNat ≤ 0x1F5FF) ∨
  (0x1F680 ≤ c.toNat ∧ c.toNat ≤ 0x1F6FF) ∨
  (0x1F700 ≤ c.toNat ∧ c.toNat ≤ 0x1FAFF) ∨
  (0x2702 ≤ c.toNat ∧ c.toNat ≤ 0x27B0) ∨
  (0x1F1E0 ≤ c.toNat ∧ c.toNat ≤ 0x1F1FF)

instance (c : Char) : Decidable (inSpecBlocks c) := by
  unfold inSpecBlocks; infer_instance

/-! Definitions for the release-tag fallback of
`generate_release_notes.py`. -/

/-- The default character set of Python's `str.strip()`. -/
def isPySpace (c : Char) : Bool :=
  c = ' ' || c = '\t' || c = '\n' || c = '\r' ||
  c = Char.ofNat 0x0b || c = Char.ofNat 0x0c

/-- Python `str.strip()`: drop leading and trailing whitespace. -/
def pyStrip (l : List Char) : List Char :=
  ((l.dropWhile isPySpace).reverse.dropWhile isPySpace).reverse

/-- The two subprocess results `get_last_release_tag` can consult:
`git describe --tags --abbrev=0` (its stdout when it succeeds, `none` when
it exits non-zero) and the stdout of `git rev-list --max-parents=0 HEAD`. -/
structure GitTagEnv where
  describeOut : Option (List Char)
  revListOut : List Char

/-- Shallow embedding of `get_last_release_tag`: the stripped tag when the
describe call succeeded, otherwise the first eight characters of the
stripped first-commit output. -/
def get_last_release_tag (env : GitTagEnv) : List Char :=
  match env.describeOut with
  | some out => pyStrip out
  | none => (pyStrip env.revListOut).take 8

/-! Definitions for the commit-log parser of
`generate_release_notes.py`. -/

/-- A parsed commit record: the first five `|`-delimited fields of a log
line produced with `--pretty=format:%H|%s|%b|%an|%ad`. -/
structure Commit where
  hash : List Char
  subject : List Char
  body : List Char
  author : List Char
  date : List Char
deriving DecidableEq

/-- The parsing loop of `get_commits_since_tag`: skip empty lines, split the
rest on `|`, and keep a record only when at least five fields result. -/
def commitsLoop : List (List Char) → List Commit
  | [] => []
  | line :: rest =>
    if line = [] then commitsLoop rest
    else
      let parts := line.splitOn '|'
      if h : 5 ≤ parts.length then
        { hash := parts[0], subject := parts[1], body := parts[2],
          author := parts[3], date := parts[4] } :: commitsLoop rest
      else commitsLoop rest

/-- Shallow embedding of the parsing phase of `get_commits_since_tag`,
applied to the raw `git log` stdout: `result.stdout.strip().split("\n")`,
then the line loop. -/
def parseCommits (stdout : List Char) : List Commit :=
  commitsLoop ((pyStrip stdout).splitOn '\n')

/-- Per-line behaviour as the claim states it: a record from the first five
delimited fields when a line splits into at least 5 fields, nothing
otherwise. -/
def parseLine (line : List Char) : Option Commit :=
  if line = [] then none
  else
    let parts := line.splitOn '|'
    if h : 5 ≤ parts.length then
      some { hash := parts[0], subject := parts[1], body := parts[2],
             author := parts[3], date := parts[4] }
    else none

/-! Definitions for the version extractor of `generate_release_notes.py`.

The two patterns searched by `get_current_version` are concrete regular
expressions with literal text, `\s*`, one optional quote and the capture
`(\d+\.\d+\.\d+)`; no backtracking can occur (a digit is never a dot,
whitespace or quote), so each is embedded as a deterministic matcher.
Digits are modelled as ASCII digits. -/

/-- Consume an expected literal from the front of the input, returning the
remainder, or `none` when the input does not start with it. -/
def dropLit : List Char → List Char → Option (List Char)
  | [], s => some s
  | _ :: _, [] => none
  | c :: cs, x :: xs => if x = c then dropLit cs xs else none

/-- Greedy `\d+\.\d+\.\d+` at the current position: the captured version
string and the rest of the input. -/
def matchSemverAt (s : List Char) : Option (List Char × List Char) :=
  let d1 := s.takeWhile Char.isDigit
  let r1 := s.dropWhile Char.isDigit
  if d1 = [] then none
  else
    match r1 with
    | '.' :: r2 =>
      let d2 := r2.takeWhile Char.isDigit
      let r3 := r2.dropWhile Char.isDigit
      if d2 = [] then none
      else
        match r3 with
        | '.' :: r4 =>
          let d3 := r4.takeWhile Char.isDigit
          let r5 := r4.dropWhile Char.isDigit
          if d3 = [] then none
          else some (d1 ++ '.' :: d2 ++ '.' :: d3, r5)
        | _ => none
    | _ => none

/-- Match `MARKETING_VERSION:\s*["\']?(\d+\.\d+\.\d+)` at one position. -/
def matchMarketingAt (s : List Char) : Option (List Char) :=
  match dropLit "MARKETING_VERSION:".toList s with
  | none => none
  | some r1 =>
    let r2 := r1.dropWhile isPySpace
    let r3 := match r2 with
      | c :: cs => if c = '"' || c = '\'' then cs else c :: cs
      | [] => []
    match matchSemverAt r3 with
    | none => none
    | some (cap, _) => some cap

/-- Match the plist pattern
`<key>CFBundleShortVersionString</key>\s*<string>(\d+\.\d+\.\d+)</string>`
at one position. -/
def matchPlistVersionAt (s : List Char) : Option (List Char) :=
  match dropLit "<key>CFBundleShortVersionString</key>".toList s with
  | none => none
  | some r1 =>
    match dropLit "<string>".toList (r1.dropWhile isPySpace) with
    | none => none
    | some r2 =>
      match matchSemverAt r2 with
      | none => none
      | some (cap, r3) =>
        match dropLit "</string>".toList r3 with
        | none => none
        | some _ => some cap

/-- `re.search`: try the matcher at every start position, leftmost first. -/
def reSearch (m : List Char → Option (List Char)) : List Char → Option (List Char)
  | [] => m []
  | c :: rest =>
    match m (c :: rest) with
    | some v => some v
    | none => reSearch m rest

/-- Search `project.yml` content for the marketing-version pattern. -/
def searchMarketing (s : List Char) : Option (List Char) :=
  reSearch matchMarketingAt s

/-- Search an `Info.plist` content for the bundle-short-version pattern. -/
def searchPlistVersion (s : List Char) : Option (List Char) :=
  reSearch matchPlistVersionAt s

/-- Python's `pat in s` substring test. -/
def hasSub (pat : List Char) : List Char → Bool
  | [] => pat.isEmpty
  | c :: rest => (dropLit pat (c :: rest)).isSome || hasSub pat rest

/-- One `Info.plist` file found by the glob, in glob order; `content` is
`none` when reading it raises (the loop's `except` skips it). -/
structure PlistFile where
  path : List Char
  content : Option (List Char)

/-- The filesystem facts `get_current_version` consults: the content of
`<base>/project.yml` when that file exists (the source reads it unguarded),
and the globbed `Info.plist` files. -/
structure ProjectDir where
  projectYml : Option (List Char)
  plists : List PlistFile

/-- The path filter of the plist loop: skip paths containing `.build` or
`DerivedData`. -/
def isSkippedPlist (path : List Char) : Bool :=
  hasSub ".build".toList path || hasSub "DerivedData".toList path

/-- The `Info.plist` loop of `get_current_version`. -/
def plistVersionLoop : List PlistFile → List Char
  | [] => "1.0.0".toList
  | p :: rest =>
    if isSkippedPlist p.path then plistVersionLoop rest
    else
      match p.content with
      | none => plistVersionLoop rest
      | some c =>
        match searchPlistVersion c with
        | some v => v
        | none => plistVersionLoop rest

/-- Shallow embedding of `get_current_version`. -/
def get_current_version (d : ProjectDir) : List Char :=
  match d.projectYml with
  | some content =>
    match searchMarketing content with
    | some v => v
    | none => plistVersionLoop d.plists
  | none => plistVersionLoop d.plists

/-- The contribution of one plist file, as the claim describes it: a match
from a readable, non-build file. -/
def plistHit (p : PlistFile) : Option (List Char) :=
  if isSkippedPlist p.path then none else p.content.bind searchPlistVersion

/-! Definitions for the context gatherer of `generate_description.py`. -/

/-- The skip test of `get_swift_files`: `"Tests" in f or "build" in f or
".build" in f`. -/
def isSkippedSwift (path : List Char) : Bool :=
  hasSub "Tests".toList path || hasSub "build".toList path ||
    hasSub ".build".toList path

/-- Shallow embedding of `get_swift_files` on the glob result: filter, then
`[:30]`. -/
def get_swift_files (files : List (List Char)) : List (List Char) :=
  (files.filter (fun f => !isSkippedSwift f)).take 30

/-- One source file handed to `read_file_contents`; `content` is `none`
when opening or reading it raises (the `except` clause skips it). -/
structure SrcFile where
  path : List Char
  content : Option (List Char)

/-- The string appended per included file:
`f"// File: {f}\n{content}\n"`.  Its header and trailing newline are not
counted against the character budget. -/
def fileEntry (path content : List Char) : List Char :=
  "// File: ".toList ++ path ++ '\n' :: (content ++ ['\n'])

/-- The reading loop of `read_file_contents` over the state
`(contents, total_chars)`: a file whose content would push `total_chars`
past `maxChars` breaks the loop; only content lengths are added to
`total_chars`. -/
def readFold (maxChars : ℕ) : List SrcFile → List (List Char) × ℕ → List (List Char) × ℕ
  | [], acc => acc
  | f :: rest, acc =>
    match f.content with
    | none => readFold maxChars rest acc
    | some content =>
      if maxChars < acc.2 + content.length then acc
      else readFold maxChars rest
        (acc.1 ++ [fileEntry f.path content], acc.2 + content.length)

/-- Python `"\n".join(contents)`. -/
def joinNL : List (List Char) → List Char
  | [] => []
  | [x] => x
  | x :: y :: rest => x ++ '\n' :: joinNL (y :: rest)

/-- Shallow embedding of `read_file_contents`. -/
def read_file_contents (files : List SrcFile) (maxChars : ℕ) : List Char :=
  joinNL (readFold maxChars files ([], 0)).1

/-! Definitions for the default output-path resolution shared by the two
text generators. -/

/-- The description generator's default output destination as a component
path, from the booleans the two `exists()` probes return. -/
def descriptionOutputPath (root : List String) (iosPath : String)
    (appFastlaneExists rootFastlaneExists : Bool) : List String :=
  if appFastlaneExists then
    root ++ [iosPath, "fastlane", "metadata", "en-US", "description.txt"]
  else if rootFastlaneExists then
    root ++ ["fastlane", "metadata", "en-US", "description.txt"]
  else
    root ++ ["fastlane", "metadata", "en-US", "description.txt"]

/-- The release-notes generator's default output destination, same shape. -/
def releaseNotesOutputPath (root : List String) (iosPath : String)
    (appFastlaneExists rootFastlaneExists : Bool) : List String :=
  if appFastlaneExists then
    root ++ [iosPath, "fastlane", "metadata", "en-US", "release_notes.txt"]
  else if rootFastlaneExists then
    root ++ ["fastlane", "metadata", "en-US", "release_notes.txt"]
  else
    root ++ ["fastlane", "metadata", "en-US", "release_notes.txt"]

/-! Theorems about the icon generator. -/

theorem genSizesLoop_eq_dedupLoop (l : List (ℚ × ℕ)) (seen : List ℤ) :
    genSizesLoop l seen = dedupLoop (l.map (fun e => pixelOf e.1 e.2)) seen := by
  induction l generalizing seen with
  | nil => rfl
  | cons e rest ih =>
    obtain ⟨p, s⟩ := e
    simp only [genSizesLoop, dedupLoop, List.map_cons]
    split <;> simp [ih]

/-- The 18 catalog pixel sizes, in catalog order. -/
theorem catalog_pixels :
    IOS_ICON_SIZES.map (fun e => pixelOf e.1 e.2) =
      [40, 60, 58, 87, 80, 120, 120, 180, 20, 40, 29, 58, 40, 80, 76, 152,
       167, 1024] := by
  simp only [IOS_ICON_SIZES, List.map_cons, List.map_nil, pixelOf]
  norm_num [pyInt]

/-- The concrete value of `generatedSizes`: first occurrences of the catalog
pixel sizes, in emission order. -/
theorem generatedSizes_eq :
    generatedSizes = [40, 60, 58, 87, 80, 120, 180, 20, 29, 76, 152, 167, 1024] := by
  rw [generatedSizes, genSizesLoop_eq_dedupLoop, catalog_pixels]
  decide

/-- C1: in a full (non-preview) run, the manifest has one entry per catalog
element (18, duplicates included) while exactly one PNG is written per
distinct computed pixel size; in particular (20, 2) and (40, 1) both resolve
to 40 px and a single `icon_40x40.png` is emitted. -/
theorem c1_manifest_count_and_image_dedup :
    (generate_contents_json IOS_ICON_SIZES).images.length = IOS_ICON_SIZES.length ∧
    IOS_ICON_SIZES.length = 18 ∧
    generatedSizes.Nodup ∧
    (∀ px ∈ IOS_ICON_SIZES.map (fun e => pixelOf e.1 e.2), px ∈ generatedSizes) ∧
    (∀ px ∈ generatedSizes, px ∈ IOS_ICON_SIZES.map (fun e => pixelOf e.1 e.2)) ∧
    generatedSizes.length = 13 ∧
    pixelOf 20 2 = 40 ∧ pixelOf 40 1 = 40 ∧
    generatedFiles.count (fileNameOf 40) = 1 ∧
    fileNameOf 40 = "icon_40x40.png" := by
  refine ⟨by simp [generate_contents_json], by decide, ?_, ?_, ?_, ?_, ?_, ?_, ?_, ?_⟩
  · rw [generatedSizes_eq]; decide
  · rw [catalog_pixels, generatedSizes_eq]; decide
  · rw [catalog_pixels, generatedSizes_eq]; decide
  · rw [generatedSizes_eq]; decide
  · norm_num [pixelOf, pyInt]
  · norm_num [pixelOf, pyInt]
  · rw [generatedFiles, generatedSizes_eq]; decide
  · decide

theorem c1_witness :
    (40 : ℤ) ∈ generatedSizes ∧ fileNameOf 40 ∈ generatedFiles := by
  constructor
  · exact c1_manifest_count_and_image_dedup.2.2.2.1 40 (by simp [catalog_pixels])
  · exact List.mem_map_of_mem fileNameOf
      (c1_manifest_count_and_image_dedup.2.2.2.1 40 (by simp [catalog_pixels]))

/-- C2: over the catalog, the idiom tag is `"iphone"` exactly for 60 pt at
scale 2 or 3, `"ipad"` exactly for 76 pt and 83.5 pt, `"ios-marketing"`
exactly for 1024 pt, and `"universal"` otherwise; the tablet 20/29/40 pt
entries fall through to `"universal"`, entry (60, 2) yields
`icon_120x120.png` with idiom `"iphone"`, and entry (1024, 1) yields
`icon_1024x1024.png` with idiom `"ios-marketing"`. -/
theorem c2_idiom_classification :
    (∀ e ∈ IOS_ICON_SIZES,
      (idiomOf e.1 e.2 = "iphone" ↔ e.1 = 60 ∧ (e.2 = 2 ∨ e.2 = 3)) ∧
      (idiomOf e.1 e.2 = "ipad" ↔ e.1 = 76 ∨ e.1 = 167/2) ∧
      (idiomOf e.1 e.2 = "ios-marketing" ↔ e.1 = 1024) ∧
      (idiomOf e.1 e.2 = "universal" ↔
        ¬(e.1 = 60 ∧ (e.2 = 2 ∨ e.2 = 3)) ∧ ¬(e.1 = 76 ∨ e.1 = 167/2) ∧
          e.1 ≠ 1024)) ∧
    idiomOf 20 1 = "universal" ∧ idiomOf 29 1 = "universal" ∧
    idiomOf 40 1 = "universal" ∧
    (manifestEntryOf 60 2).filename = "icon_120x120.png" ∧
    (manifestEntryOf 60 2).idiom = "iphone" ∧
    (manifestEntryOf 1024 1).filename = "icon_1024x1024.png" ∧
    (manifestEntryOf 1024 1).idiom = "ios-marketing" := by
  refine ⟨?_, ?_, ?_, ?_, ?_, ?_, ?_, ?_⟩
  · intro e he
    fin_cases he <;>
      refine ⟨?_, ?_, ?_, ?_⟩ <;> rw [idiomOf] <;> norm_num <;> decide
  · rw [idiomOf]; norm_num
  · rw [idiomOf]; norm_num
  · rw [idiomOf]; norm_num
  · show fileNameOf (pixelOf 60 2) = _
    have : pixelOf 60 2 = 120 := by norm_num [pixelOf, pyInt]
    rw [this]; decide
  · show idiomOf 60 2 = _
    rw [idiomOf]; norm_num
  · show fileNameOf (pixelOf 1024 1) = _
    have : pixelOf 1024 1 = 1024 := by norm_num [pixelOf, pyInt]
    rw [this]; decide
  · show idiomOf 1024 1 = _
    rw [idiomOf]; norm_num

theorem c2_witness :
    (idiomOf 60 2 = "iphone" ↔ (60 : ℚ) = 60 ∧ ((2 : ℕ) = 2 ∨ (2 : ℕ) = 3)) ∧
    (idiomOf 1024 1 = "ios-marketing" ↔ (1024 : ℚ) = 1024) := by
  constructor
  · exact (c2_idiom_classification.1 (60, 2) (by simp [IOS_ICON_SIZES])).1
  · exact (c2_idiom_classification.1 (1024, 1) (by simp [IOS_ICON_SIZES])).2.2.1

/-- C3: for every catalog entry the pixel size used for image generation,
deduplication and manifest filenames — `int(points * scale)` — equals
`round(points * scale)`; in particular entry (83.5, 2) gives 167. -/
theorem c3_pixel_size_round :
    (∀ e ∈ IOS_ICON_SIZES, pixelOf e.1 e.2 = round (e.1 * (e.2 : ℚ))) ∧
    pixelOf (167/2) 2 = 167 := by
  constructor
  · intro e he
    fin_cases he <;> norm_num [pixelOf, pyInt, round_eq]
  · norm_num [pixelOf, pyInt]

theorem c3_witness :
    pixelOf (167/2) 2 = round ((167/2 : ℚ) * ((2 : ℕ) : ℚ)) :=
  c3_pixel_size_round.1 (167/2, 2) (by simp [IOS_ICON_SIZES])

/-! Theorems about the emoji stripper. -/

/-- The source's eleven ranges cover exactly the claim's six blocks: the six
contiguous supplemental ranges fuse into U+1F700–U+1FAFF. -/
theorem isEmojiChar_iff_inSpecBlocks (c : Char) :
    isEmojiChar c = true ↔ inSpecBlocks c := by
  simp only [isEmojiChar, inSpecBlocks, Bool.or_eq_true, Bool.and_eq_true,
    decide_eq_true_eq]
  omega

/-- C4: the emoji stripper is idempotent, and no code point of the claim's
Unicode blocks survives stripping. -/
theorem c4_strip_emoji_idempotent_complete (s : List Char) :
    stripEmoji (stripEmoji s) = stripEmoji s ∧
    ∀ c ∈ stripEmoji s, ¬ inSpecBlocks c := by
  constructor
  · simp [stripEmoji, List.filter_filter]
  · intro c hc
    rw [stripEmoji, List.mem_filter] at hc
    rw [← isEmojiChar_iff_inSpecBlocks]
    simp only [Bool.not_eq_true', Bool.not_eq_eq_eq_not] at hc ⊢
    simpa using hc.2

theorem c4_witness :
    stripEmoji (stripEmoji ['a', Char.ofNat 0x1F600]) =
      stripEmoji ['a', Char.ofNat 0x1F600] ∧
    ¬ inSpecBlocks 'a' :=
  ⟨(c4_strip_emoji_idempotent_complete ['a', Char.ofNat 0x1F600]).1,
   (c4_strip_emoji_idempotent_complete ['a', Char.ofNat 0x1F600]).2 'a'
     (by decide)⟩

/-! Theorems about the release-tag fallback. -/

theorem length_dropWhile_le (p : Char → Bool) (l : List Char) :
    (l.dropWhile p).length ≤ l.length :=
  (List.dropWhile_suffix p).length_le

theorem dropWhile_append_of_head (p : Char → Bool) (t m : List Char)
    (ht : t.dropWhile p = t) (hne : t ≠ []) :
    (t ++ m).dropWhile p = t ++ m := by
  cases t with
  | nil => exact absurd rfl hne
  | cons a t' =>
    have hpa : p a = false := by
      cases h : p a with
      | false => rfl
      | true =>
        rw [List.dropWhile_cons, h] at ht
        simp only [if_true] at ht
        have := length_dropWhile_le p t'
        rw [ht] at this
        simp at this
    simp [List.dropWhile_cons, hpa]

/-- Stripping a string with no surrounding whitespace and one trailing
whitespace character returns the string itself. -/
theorem pyStrip_append_ws (l : List Char)
    (hd : l.dropWhile isPySpace = l)
    (hr : l.reverse.dropWhile isPySpace = l.reverse)
    (hne : l ≠ []) (c : Char) (hc : isPySpace c = true) :
    pyStrip (l ++ [c]) = l := by
  rw [pyStrip, dropWhile_append_of_head isPySpace l [c] hd hne,
    List.reverse_append]
  simp only [List.reverse_cons, List.reverse_nil, List.nil_append,
    List.singleton_append, List.dropWhile_cons, hc, if_true, hr,
    List.reverse_reverse]

/-- C6: with a raw subprocess stdout of the form `payload ++ "\n"` (the
payload carrying no surrounding whitespace), the gatherer returns the tag
unmodified when the tag query succeeds — whatever the rev-list output is —
and the first commit hash truncated to its first 8 characters when it
fails. -/
theorem c6_release_tag_fallback (t h fc : List Char)
    (htd : t.dropWhile isPySpace = t)
    (htr : t.reverse.dropWhile isPySpace = t.reverse) (htne : t ≠ [])
    (hhd : h.dropWhile isPySpace = h)
    (hhr : h.reverse.dropWhile isPySpace = h.reverse) (hhne : h ≠ []) :
    get_last_release_tag ⟨some (t ++ ['\n']), fc⟩ = t ∧
    get_last_release_tag ⟨none, h ++ ['\n']⟩ = h.take 8 := by
  constructor
  · rw [get_last_release_tag]
    exact pyStrip_append_ws t htd htr htne '\n' (by decide)
  · rw [get_last_release_tag]
    rw [pyStrip_append_ws h hhd hhr hhne '\n' (by decide)]

theorem c6_witness :
    get_last_release_tag
        ⟨some ("v1.2.3".toList ++ ['\n']), "ignored".toList⟩ =
      "v1.2.3".toList ∧
    get_last_release_tag
        ⟨none, "0123456789abcdef0123".toList ++ ['\n']⟩ =
      "01234567".toList :=
  ⟨(c6_release_tag_fallback "v1.2.3".toList "0123456789abcdef0123".toList
      "ignored".toList (by decide) (by decide) (by decide) (by decide)
      (by decide) (by decide)).1,
   by
    have := (c6_release_tag_fallback "v1.2.3".toList
      "0123456789abcdef0123".toList "ignored".toList (by decide) (by decide)
      (by decide) (by decide) (by decide) (by decide)).2
    rw [this]; decide⟩

/-! Theorems about the commit-log parser. -/

theorem commitsLoop_eq_filterMap (lines : List (List Char)) :
    commitsLoop lines = lines.filterMap parseLine := by
  induction lines with
  | nil => rfl
  | cons line rest ih =>
    by_cases he : line = []
    · subst he; simp [commitsLoop, parseLine, List.filterMap_cons, ih]
    · by_cases h5 : 5 ≤ (line.splitOn '|').length
      · simp [commitsLoop, parseLine, he, h5, List.filterMap_cons, ih]
      · simp [commitsLoop, parseLine, he, h5, List.filterMap_cons, ih]

/-- C7: the history parser is total — on any input text it yields exactly
one record per line that splits into at least five `|`-delimited fields,
built from the first five fields, while an empty line and a line with fewer
than five fields contribute nothing. -/
theorem c7_commit_log_parsing (stdout : List Char) :
    parseCommits stdout = ((pyStrip stdout).splitOn '\n').filterMap parseLine ∧
    parseLine [] = none ∧
    (∀ line : List Char, (line.splitOn '|').length < 5 → parseLine line = none) ∧
    (∀ line : List Char, ∀ h : 5 ≤ (line.splitOn '|').length, line ≠ [] →
      parseLine line = some
        { hash := (line.splitOn '|')[0], subject := (line.splitOn '|')[1],
          body := (line.splitOn '|')[2], author := (line.splitOn '|')[3],
          date := (line.splitOn '|')[4] }) := by
  refine ⟨commitsLoop_eq_filterMap _, rfl, ?_, ?_⟩
  · intro line hlt
    rw [parseLine]
    split
    · rfl
    · rw [dif_neg (by omega)]
  · intro line h5 hne
    rw [parseLine, if_neg hne, dif_pos h5]

theorem c7_witness :
    parseLine "a|b".toList = none ∧
    parseLine "h|s|b|a|d".toList =
      some { hash := "h".toList, subject := "s".toList, body := "b".toList,
             author := "a".toList, date := "d".toList } := by
  constructor
  · exact (c7_commit_log_parsing []).2.2.1 "a|b".toList (by decide)
  · have := (c7_commit_log_parsing []).2.2.2 "h|s|b|a|d".toList (by decide)
      (by decide)
    rw [this]; decide

/-! Theorems about the version extractor. -/

theorem plistVersionLoop_eq_headD (ps : List PlistFile) :
    plistVersionLoop ps = (ps.filterMap plistHit).headD "1.0.0".toList := by
  induction ps with
  | nil => rfl
  | cons p rest ih =>
    by_cases hs : isSkippedPlist p.path
    · simp [plistVersionLoop, plistHit, hs, ih]
    · cases hc : p.content with
      | none => simp [plistVersionLoop, plistHit, hs, hc, ih]
      | some c =>
        cases hm : searchPlistVersion c with
        | none => simp [plistVersionLoop, plistHit, hs, hc, hm, ih]
        | some v => simp [plistVersionLoop, plistHit, hs, hc, hm]

/-- C8: the version extractor is total and first-match-wins: the
marketing-version match from `project.yml` when there is one, else the
first bundle-short-version match of a readable non-build `Info.plist`, else
the hardcoded `"1.0.0"`; two concrete runs exercise the first and last
branch. -/
theorem c8_version_extractor :
    (∀ d : ProjectDir,
      get_current_version d =
        (d.projectYml.bind searchMarketing).getD
          ((d.plists.filterMap plistHit).headD "1.0.0".toList)) ∧
    get_current_version
        ⟨some "MARKETING_VERSION: \"2.1.0\"".toList, []⟩ = "2.1.0".toList ∧
    get_current_version ⟨none, []⟩ = "1.0.0".toList := by
  refine ⟨?_, by decide, by decide⟩
  intro d
  cases hy : d.projectYml with
  | none => simp [get_current_version, hy, plistVersionLoop_eq_headD]
  | some content =>
    cases hm : searchMarketing content with
    | none => simp [get_current_version, hy, hm, plistVersionLoop_eq_headD]
    | some v => simp [get_current_version, hy, hm]

/-! Theorems about the context gatherer bounds. -/

/-- Length of one appended entry: 11 characters of header and newlines plus
the path and the content. -/
theorem fileEntry_length (p c : List Char) :
    (fileEntry p c).length = 11 + p.length + c.length := by
  rw [fileEntry]
  rw [List.length_append, List.length_append, List.length_cons,
    List.length_append]
  have h9 : ("// File: ".toList).length = 9 := rfl
  have hn : (['\n'] : List Char).length = 1 := rfl
  omega

/-- A single readable file whose content exactly fills the budget is
included whole. -/
theorem read_file_contents_single (path content : List Char) :
    read_file_contents [⟨path, some content⟩] content.length =
      fileEntry path content := by
  rw [read_file_contents, readFold]
  dsimp only
  rw [if_neg (by omega), readFold]
  rw [List.nil_append, joinNL]

/-- C9 counterexample: a single readable file named `a` holding exactly
50,000 characters.  Its content fits the budget, yet the returned blob is
50,012 characters long — the `// File: a` header and the newlines are not
counted against the budget — refuting the claim that the returned blob
never exceeds 50,000 characters. -/
theorem c9_counterexample :
    50000 <
      (read_file_contents [⟨"a".toList, some (List.replicate 50000 'x')⟩]
        50000).length := by
  have h := read_file_contents_single "a".toList (List.replicate 50000 'x')
  rw [List.length_replicate] at h
  rw [h, fileEntry_length, List.length_replicate]
  have h1 : ("a".toList).length = 1 := rfl
  omega

/-- C9 as amended: at most 30 source files are selected; the loop's
character total — which counts only file contents — never leaves the
budget, and a file whose content would push it past the budget stops
inclusion; the prompt-side truncation keeps at most 30,000 characters. -/
theorem c9_amended_bounds :
    (∀ files : List (List Char), (get_swift_files files).length ≤ 30) ∧
    (∀ (files : List SrcFile) (maxChars : ℕ) (acc : List (List Char) × ℕ),
      acc.2 ≤ maxChars → (readFold maxChars files acc).2 ≤ maxChars) ∧
    (∀ (f : SrcFile) (rest : List SrcFile) (maxChars : ℕ)
        (acc : List (List Char) × ℕ) (content : List Char),
      f.content = some content → maxChars < acc.2 + content.length →
      readFold maxChars (f :: rest) acc = acc) ∧
    (∀ files : List SrcFile,
      ((read_file_contents files 50000).take 30000).length ≤ 30000) := by
  refine ⟨?_, ?_, ?_, ?_⟩
  · intro files
    rw [get_swift_files]
    exact List.length_take_le 30 _
  · intro files
    induction files with
    | nil => intro maxChars acc h; simp [readFold]; exact h
    | cons f rest ih =>
      intro maxChars acc h
      rw [readFold]
      cases hc : f.content with
      | none => exact ih maxChars acc h
      | some content =>
        dsimp only
        by_cases hb : maxChars < acc.2 + content.length
        · rw [if_pos hb]; exact h
        · rw [if_neg hb]
          exact ih maxChars _ (by simpa using Nat.le_of_not_lt hb)
  · intro f rest maxChars acc content hc hb
    rw [readFold, hc]
    dsimp only
    rw [if_pos hb]
  · intro files
    exact le_trans (Nat.le_of_eq (List.length_take _ _)) (Nat.min_le_left _ _)

theorem c9_witness :
    (readFold 10 [⟨"a".toList, some "abcdefgh".toList⟩] ([], 5) = ([], 5)) ∧
    (readFold 50000 [] ([], 0)).2 ≤ 50000 :=
  ⟨c9_amended_bounds.2.2.1 ⟨"a".toList, some "abcdefgh".toList⟩ [] 10
      ([], 5) "abcdefgh".toList rfl (by decide),
   c9_amended_bounds.2.1 [] 50000 ([], 0) (by decide)⟩

/-! Theorems about the default output-path resolution. -/

/-- C10: in both generators, when the app-specific fastlane directory does
not exist the chosen destination is the repository-root fastlane metadata
path whether or not the repository-root fastlane directory exists — the
second probe never changes the result. -/
theorem c10_output_path_fallback (root : List String) (iosPath : String)
    (rootFastlaneExists : Bool) :
    descriptionOutputPath root iosPath false rootFastlaneExists =
      root ++ ["fastlane", "metadata", "en-US", "description.txt"] ∧
    descriptionOutputPath root iosPath false rootFastlaneExists =
      descriptionOutputPath root iosPath false true ∧
    releaseNotesOutputPath root iosPath false rootFastlaneExists =
      root ++ ["fastlane", "metadata", "en-US", "release_notes.txt"] ∧
    releaseNotesOutputPath root iosPath false rootFastlaneExists =
      releaseNotesOutputPath root iosPath false true := by
  refine ⟨?_, ?_, ?_, ?_⟩ <;> cases rootFastlaneExists <;>
    simp [descriptionOutputPath, releaseNotesOutputPath]

end IosInfra
